import Mathlib

/-!
Shallow embedding of the phased uninstallation orchestrator of package
`deployment` (parallel-install): the Timeout/Cancel/Quit Supervisor
(`uninstallComponents`), the Two-Phase Orchestrator
(`startKymaUninstallation`) and the Parallel Namespace Teardown Coordinator
(`deleteKymaNamespaces`).

Go errors are modelled as a message string plus the `apierr.IsNotFound`
classification bit; machine durations as `Int` (nanoseconds, overflow
irrelevant at the magnitudes involved); channels and goroutine interleaving
as explicit event traces, documented at each definition.
-/

namespace Deployment

/-- A Go `error` value: its message and whether `apierr.IsNotFound` holds
for it. `none` at use sites models a nil error. -/
structure GoError where
  msg : String
  notFound : Bool := false
  deriving DecidableEq, Repr

/-- Component status strings produced by the engine
(`components.Status*`); only `StatusError` is inspected by the
supervisor (`cmp.Status == components.StatusError`, line 138). -/
inductive Status
  | pending
  | inProgress
  | success
  | error
  deriving DecidableEq, Repr

/-- One per-component event received from the engine's status channel:
the component name and its status (`cmp.Name`, `cmp.Status`). -/
structure Component where
  name : String
  status : Status
  deriving DecidableEq, Repr

/-!
## Timeout/Cancel/Quit Supervisor (`uninstallComponents`, lines 117-170)

The Go loop is a `select` over three channels: the engine status stream
(`statusChan`, which either delivers a component event or reports closure),
the soft-cancel timer (`cancelTimeoutChan`) and the hard-quit timer
(`quitTimeoutChan`).  A run of the loop is determined by the order in which
these sources fire, so we embed a run as a trace: the list of `select`
outcomes in the order the loop observed them.
-/

/-- One observation of the supervisor's `select` (lines 134-166):
a stream event with `ok = true`, the stream closing (`ok = false`),
the soft-cancel timer firing, or the hard-quit timer firing. -/
inductive SupEvent
  | recv (cmp : Component)
  | closed
  | softTimer
  | hardTimer
  deriving DecidableEq, Repr

/-- Notifications pushed to the progress sink by `uninstallComponents`:
`processUpdate(phase, ProcessStart/ProcessExecutionFailure/
ProcessTimeoutFailure/ProcessForceQuitFailure/ProcessFinished, ...)` and
`processUpdateComponent(phase, cmp)`. -/
inductive Notif
  | processStart
  | processComponent (cmp : Component)
  | processExecutionFailure (errCount : Nat)
  | processTimeoutFailure
  | processForceQuitFailure
  | processFinished
  deriving DecidableEq, Repr

/-- Terminal result of one `uninstallComponents` invocation: the nil
return (`finished`), the three failure returns of the loop, or the
early return of the error from `eng.Uninstall` itself (line 126). -/
inductive Outcome
  | finished
  | componentFailure (errCount : Nat)
  | timeoutFailure
  | forceQuitFailure
  | engineError (e : GoError)
  deriving DecidableEq, Repr

/-- Go map assignment `statusMap[cmp.Name] = cmp.Status` (line 141):
overwrite any previous binding for the key. -/
def mapSet (m : List (String × Status)) (k : String) (v : Status) :
    List (String × Status) :=
  (k, v) :: m.filter (fun p => p.1 ≠ k)

/-- The `UninstallLoop` of lines 132-167, run over a trace of `select`
observations.  State threaded exactly as in the source: the error counter
(`errCount`, line 121), the soft-timeout flag (`timeoutOccured`, line 122)
and the `statusMap` (line 120).  Returns the notifications emitted inside
and after the loop, and `some` terminal outcome, or `none` when the trace
ends with the loop still waiting (the Go loop would still be blocked in
`select`).  A trailing `Finished` notification (line 168) is emitted on the
`break UninstallLoop` path. -/
def uninstallLoop :
    List SupEvent → Nat → Bool → List (String × Status) →
    List Notif × Option Outcome
  | [], _, _, _ => ([], none)
  | SupEvent.recv cmp :: rest, errCount, timeoutOccured, statusMap =>
      let errCount' := if cmp.status = Status.error then errCount + 1 else errCount
      let r := uninstallLoop rest errCount' timeoutOccured (mapSet statusMap cmp.name cmp.status)
      (Notif.processComponent cmp :: r.1, r.2)
  | SupEvent.closed :: _, errCount, timeoutOccured, _ =>
      if errCount > 0 then
        ([Notif.processExecutionFailure errCount], some (Outcome.componentFailure errCount))
      else if timeoutOccured then
        ([Notif.processTimeoutFailure], some Outcome.timeoutFailure)
      else
        ([Notif.processFinished], some Outcome.finished)
  | SupEvent.softTimer :: rest, errCount, _, statusMap =>
      uninstallLoop rest errCount true statusMap
  | SupEvent.hardTimer :: _, _, _, _ =>
      ([Notif.processForceQuitFailure], some Outcome.forceQuitFailure)

/-- Behaviour of one engine invocation, as the supervisor can observe it:
either `eng.Uninstall(ctx)` returns a non-nil error (line 125), or it
returns a status channel whose interaction with the two timers is the
given trace of `select` observations. -/
inductive EngineRun
  | uninstallError (e : GoError)
  | stream (events : List SupEvent)
  deriving DecidableEq, Repr

/-- `uninstallComponents` (lines 117-170): on an `Uninstall` error it
returns that error before emitting anything (line 126 precedes the
`ProcessStart` update of line 129); otherwise it emits `ProcessStart` and
enters the loop. -/
def uninstallComponents : EngineRun → List Notif × Option Outcome
  | EngineRun.uninstallError e => ([], some (Outcome.engineError e))
  | EngineRun.stream events =>
      let r := uninstallLoop events 0 false []
      (Notif.processStart :: r.1, r.2)

/-- Events that leave the supervisor loop running: a received component
event or the soft-cancel timer.  `closed` and `hardTimer` always end the
loop. -/
def nonTerminal : SupEvent → Bool
  | SupEvent.recv _ => true
  | SupEvent.softTimer => true
  | SupEvent.closed => false
  | SupEvent.hardTimer => false

/-- Number of Error statuses observed in a trace prefix. -/
def errorsIn (events : List SupEvent) : Nat :=
  events.countP fun e =>
    match e with
    | SupEvent.recv cmp => cmp.status = Status.error
    | _ => false

/-- Whether the soft-cancel timer fired somewhere in a trace prefix. -/
def softFired (events : List SupEvent) : Bool :=
  events.any fun e =>
    match e with
    | SupEvent.softTimer => true
    | _ => false

/-!
## Parallel Namespace Teardown Coordinator (`deleteKymaNamespaces`, lines 172-299)

Per namespace the environment records what the cluster would answer to each
call the code makes: the pod lists returned by successive pre-check
attempts, and the list/get/update/delete results seen by the worker
goroutine.  Update results are supplied per resource name.
-/

/-- `pod.Status.Phase`; only `v1.PodRunning` is inspected (line 190). -/
inductive PodPhase
  | running
  | other
  deriving DecidableEq, Repr

/-- A pod as the pre-check sees it: name and phase. -/
structure Pod where
  name : String
  phase : PodPhase
  deriving DecidableEq, Repr

/-- Result of one `Pods(namespace).List` call in the pre-check
(line 183): a transport error or the current pod list. -/
inductive PodListResult
  | listErr (e : GoError)
  | pods (items : List Pod)
  deriving DecidableEq, Repr

/-- A cluster resource as the finalizer-clearing steps see it: its name
(finalizer contents are irrelevant, they are unconditionally overwritten
with the empty list). -/
structure Resource where
  name : String
  deriving DecidableEq, Repr

/-- Cluster behaviour for one namespace: the name, the pod lists the
successive pre-check attempts would observe (attempt index ↦ result), and
the answers to every call the spawned worker makes. -/
structure NsEnv where
  name : String
  podLists : Nat → PodListResult
  csbItems : List Resource
  csbListErr : Option GoError := none
  csbUpdateErr : String → Option GoError := fun _ => none
  sbItems : List Resource
  sbListErr : Option GoError := none
  sbUpdateErr : String → Option GoError := fun _ => none
  secretGet : Option Resource
  secretGetErr : Option GoError := none
  secretUpdateErr : Option GoError := none
  ruleItems : List Resource
  rulesListErr : Option GoError := none
  ruleUpdateErr : String → Option GoError := fun _ => none
  nsDeleteErr : Option GoError := none

/-- Outcome of the retried liveness pre-check of lines 181-196.
`blocked`: a pod-list call failed, so line 185 sends on the unbuffered
`errorCh`; during the spawn loop no goroutine receives from `errorCh`
(the consuming `select` of lines 284-298 runs in the same goroutine,
strictly after the loop; workers only send), so the send, and with it the
whole `deleteKymaNamespaces` call, blocks forever.
`passed`: some attempt saw no running pod — the retry function returned
nil and a worker is spawned.
`skipped`: every attempt saw a running pod — `retry.Do` exhausted its
attempts with a non-nil error, so the namespace is logged and skipped
(lines 198-202). -/
inductive PrecheckOutcome
  | blocked
  | passed
  | skipped
  deriving DecidableEq, Repr

/-- Whether any pod of the list is in the Running phase — the condition
of lines 188-194 (return a retryable error at the first Running pod,
otherwise fall through to `return nil`). -/
def hasRunningPod (items : List Pod) : Bool :=
  items.any fun p => p.phase = PodPhase.running

/-- One `retry.Do` run of the pre-check function, with `fuel` attempts
remaining and `i` the index of the current attempt. -/
def runPrecheckAux (podLists : Nat → PodListResult) : Nat → Nat → PrecheckOutcome
  | 0, _ => PrecheckOutcome.skipped
  | fuel + 1, i =>
      match podLists i with
      | PodListResult.listErr _ => PrecheckOutcome.blocked
      | PodListResult.pods items =>
          if hasRunningPod items then runPrecheckAux podLists fuel (i + 1)
          else PrecheckOutcome.passed

/-- The pre-check of lines 181-196 under a retry policy allowing
`attempts` attempts (the externally supplied `retryOptions`). -/
def runPrecheck (attempts : Nat) (env : NsEnv) : PrecheckOutcome :=
  runPrecheckAux env.podLists attempts 0

/-- One cluster call performed by a namespace worker goroutine
(lines 204-273), recorded with the resource it addresses. -/
inductive WorkerOp
  | listCSB
  | updateCSB (name : String)
  | listSB
  | updateSB (name : String)
  | getSecret
  | updateSecret (name : String)
  | listRules
  | updateRule (name : String)
  | deleteNS (ns : String)
  deriving DecidableEq, Repr

/-- The errors a nil-checked call contributes to `errorCh`
(`if err != nil { errorCh <- err }`). -/
def optErr : Option GoError → List GoError
  | some e => [e]
  | none => []

/-- The errors a not-found-tolerant call contributes to `errorCh`
(`if err != nil && !apierr.IsNotFound(err) { errorCh <- err }`,
lines 237 and 269). -/
def notFoundTolerated : Option GoError → List GoError
  | some e => if e.notFound then [] else [e]
  | none => []

/-- ClusterServiceBroker finalizer clearing (lines 208-219): list (error
sent on failure), then for every item overwrite its finalizers and update
(each update error sent); later items are attempted regardless of earlier
errors.  Returns the calls made and the errors sent, in program order. -/
def clearCSB (env : NsEnv) : List WorkerOp × List GoError :=
  (WorkerOp.listCSB :: env.csbItems.map (fun r => WorkerOp.updateCSB r.name),
   optErr env.csbListErr ++ env.csbItems.filterMap (fun r => env.csbUpdateErr r.name))

/-- ServiceBroker finalizer clearing (lines 222-233), same shape as
`clearCSB`. -/
def clearSB (env : NsEnv) : List WorkerOp × List GoError :=
  (WorkerOp.listSB :: env.sbItems.map (fun r => WorkerOp.updateSB r.name),
   optErr env.sbListErr ++ env.sbItems.filterMap (fun r => env.sbUpdateErr r.name))

/-- Secret `serverless-registry-config-default` finalizer clearing
(lines 236-246): get — a not-found error is tolerated, any other get error
is sent — then, when the returned pointer is non-nil, overwrite the
finalizers and update (update error sent). -/
def clearSecret (env : NsEnv) : List WorkerOp × List GoError :=
  (WorkerOp.getSecret ::
     (match env.secretGet with
      | some s => [WorkerOp.updateSecret s.name]
      | none => []),
   notFoundTolerated env.secretGetErr ++
     (match env.secretGet with
      | some _ => optErr env.secretUpdateErr
      | none => []))

/-- `oathkeeper.ory.sh/v1alpha1` Rule finalizer clearing (lines 249-266),
same shape as `clearCSB`. -/
def clearRules (env : NsEnv) : List WorkerOp × List GoError :=
  (WorkerOp.listRules :: env.ruleItems.map (fun r => WorkerOp.updateRule r.name),
   optErr env.rulesListErr ++ env.ruleItems.filterMap (fun r => env.ruleUpdateErr r.name))

/-- The whole `if ns == "kyma-system"` block (lines 206-267), in the fixed
source order: ClusterServiceBrokers, ServiceBrokers, the Secret, Rules. -/
def finalizerCleanup (env : NsEnv) : List WorkerOp × List GoError :=
  ((clearCSB env).1 ++ (clearSB env).1 ++ (clearSecret env).1 ++ (clearRules env).1,
   (clearCSB env).2 ++ (clearSB env).2 ++ (clearSecret env).2 ++ (clearRules env).2)

/-- The namespace delete call (lines 269-271): a not-found error is
tolerated, any other error is sent. -/
def deleteNsStep (env : NsEnv) : List WorkerOp × List GoError :=
  ([WorkerOp.deleteNS env.name], notFoundTolerated env.nsDeleteErr)

/-- One spawned worker goroutine (lines 204-273): finalizer cleanup when
and only when the namespace is "kyma-system", then the namespace delete.
First component: the cluster calls made, in order; second: the errors the
worker sends on `errorCh`, in its own program order.  Worker sends do not
deadlock: by the time a worker runs, the aggregating `select` of
lines 284-298 is (or will be) receiving, and `errorCh` is closed only
after `wg.Wait()` observes every worker done, i.e. after all sends have
rendezvoused. -/
def runWorker (env : NsEnv) : List WorkerOp × List GoError :=
  let pre := if env.name = "kyma-system" then finalizerCleanup env else ([], [])
  (pre.1 ++ (deleteNsStep env).1, pre.2 ++ (deleteNsStep env).2)

/-- The environments whose pre-check passed: exactly the namespaces for
which a deletion worker is spawned (line 204 is reached only when
`retry.Do` returned nil). -/
def activeEnvs (attempts : Nat) (envs : List NsEnv) : List NsEnv :=
  envs.filter fun env => runPrecheck attempts env = PrecheckOutcome.passed

/-- All errors sent on `errorCh` by spawned workers, listed worker by
worker in spawn order.  The real arrival order at the channel is a
scheduler-dependent interleaving of the per-worker sequences; every such
interleaving is a permutation of this list, so theorems quantify over an
arbitrary `arrival` permutation of it. -/
def teardownErrors (attempts : Nat) (envs : List NsEnv) : List GoError :=
  ((activeEnvs attempts envs).map (fun env => (runWorker env).2)).flatten

/-- `arrival` is a possible order in which the aggregator receives the
worker errors. -/
def ValidArrival (attempts : Nat) (envs : List NsEnv) (arrival : List GoError) : Prop :=
  arrival.Perm (teardownErrors attempts envs)

/-- `errors.Wrap(err, message)` of github.com/pkg/errors: the resulting
`Error()` is `message + ": " + err.Error()`; the wrapper is not a
not-found error. -/
def goWrap (e : GoError) (message : String) : GoError :=
  { msg := message ++ ": " ++ e.msg, notFound := false }

/-- One step of the aggregation loop (lines 289-296): the first error is
kept as is, each further error `err` replaces the accumulator `errWrapped`
by `errors.Wrap(err, errWrapped.Error())`. -/
def aggStep (errWrapped : Option GoError) (err : GoError) : Option GoError :=
  match errWrapped with
  | none => some err
  | some w => some (goWrap err w.msg)

/-- The aggregation loop of lines 284-298 over the errors in arrival
order.  Receives of the zero value from the closed channel are filtered by
the `err != nil` guard and need not be modelled. -/
def aggregate (errs : List GoError) : Option GoError :=
  errs.foldl aggStep none

/-- `deleteKymaNamespaces` (lines 172-299).  The pre-checks run
sequentially in the calling goroutine before the aggregator exists, so a
pre-check pod-list error blocks the call forever on the `errorCh` send of
line 185 — modelled as `none`.  Otherwise the call returns `errWrapped`:
the aggregation of the worker errors in their arrival order (`arrival`;
see `ValidArrival`), after `wg.Wait()` has seen every worker finish. -/
def deleteKymaNamespaces (attempts : Nat) (envs : List NsEnv)
    (arrival : List GoError) : Option (Option GoError) :=
  if envs.any (fun env => runPrecheck attempts env = PrecheckOutcome.blocked) then none
  else some (aggregate arrival)

/-!
## Two-Phase Orchestrator (`startKymaUninstallation`, lines 81-115)
-/

/-- The two `InstallationPhase` values passed to `uninstallComponents`. -/
inductive InstallationPhase
  | UninstallComponents
  | UninstallPreRequisites
  deriving DecidableEq, Repr

/-- Modelled from the spec: `calculateDuration` is called at lines 106-107
but its body is not among the provided source files.  Spec §4.2 step 3 and
§8: the adjusted budget for phase Prerequisites is
`max(0, original_budget − elapsed)` where `elapsed` is the measured
wall-clock duration of the Components phase; durations and instants are
nanosecond counts. -/
def calculateDuration (startTime endTime duration : Int) : Int :=
  max 0 (duration - (endTime - startTime))

/-- A supervisor outcome is returned as a non-nil error exactly when it is
not the nil return of line 169. -/
def outcomeIsError (out : Outcome) : Bool :=
  out ≠ Outcome.finished

/-- The collaborator invocations `startKymaUninstallation` can make after
resolving the namespaces, with the arguments that matter to the spec:
the timeout budgets handed to each supervisor run and the namespace list
handed to the teardown coordinator. -/
inductive OrchCall
  | componentsPhase (cancelTimeout quitTimeout : Int)
  | prereqPhase (cancelTimeout quitTimeout : Int)
  | teardown (namespaces : List String)
  deriving DecidableEq, Repr

/-- The error `startKymaUninstallation` returns: the metadata provider's
error (line 92), a failing supervisor outcome of either phase (lines 100
and 111), or the teardown coordinator's aggregated error (line 114). -/
inductive OrchError
  | metadata (e : GoError)
  | phase (p : InstallationPhase) (out : Outcome)
  | teardown (e : GoError)
  deriving DecidableEq, Repr

/-- Everything the orchestrator's collaborators would answer during one
run: the metadata provider's namespace query, the two engine runs, the
wall-clock instants around phase 1, the configured budgets, and the
cluster behaviour driving the teardown. -/
structure OrchEnv where
  namespacesResult : Except GoError (List String)
  componentsRun : EngineRun
  prereqRun : EngineRun
  startTime : Int
  endTime : Int
  cancelTimeout : Int
  quitTimeout : Int
  retryAttempts : Nat
  nsEnvs : List NsEnv
  arrival : List GoError

/-- `startKymaUninstallation` (lines 81-115): resolve namespaces and
append the fixed "kyma-installer" (lines 90-95); run the Components-phase
supervisor with the configured budgets, aborting on error (lines 97-101);
derive phase-2 budgets via `calculateDuration` over the measured phase-1
interval (lines 102-107); run the Prerequisites-phase supervisor, aborting
on error (lines 109-112); finally return `deleteKymaNamespaces` over the
resolved namespaces (line 114).  Returns the calls made together with the
returned error, or `none` when a phase or the teardown never returns. -/
def startKymaUninstallation (env : OrchEnv) :
    Option (List OrchCall × Option OrchError) :=
  match env.namespacesResult with
  | Except.error e => some ([], some (OrchError.metadata e))
  | Except.ok nss =>
      let namespaces := nss ++ ["kyma-installer"]
      match (uninstallComponents env.componentsRun).2 with
      | none => none
      | some out1 =>
          let c1 := OrchCall.componentsPhase env.cancelTimeout env.quitTimeout
          if outcomeIsError out1 then
            some ([c1], some (OrchError.phase InstallationPhase.UninstallComponents out1))
          else
            let cancelTimeout2 := calculateDuration env.startTime env.endTime env.cancelTimeout
            let quitTimeout2 := calculateDuration env.startTime env.endTime env.quitTimeout
            match (uninstallComponents env.prereqRun).2 with
            | none => none
            | some out2 =>
                let c2 := OrchCall.prereqPhase cancelTimeout2 quitTimeout2
                if outcomeIsError out2 then
                  some ([c1, c2], some (OrchError.phase InstallationPhase.UninstallPreRequisites out2))
                else
                  match deleteKymaNamespaces env.retryAttempts env.nsEnvs env.arrival with
                  | none => none
                  | some res =>
                      some ([c1, c2, OrchCall.teardown namespaces], res.map OrchError.teardown)

/-!
## Supervisor lemmas
-/

/-- The component notification a `select` observation produces: stream
events are forwarded via `processUpdateComponent` (line 137), timer
observations produce no per-component notification. -/
def recvNotif : SupEvent → Option Notif
  | SupEvent.recv cmp => some (Notif.processComponent cmp)
  | _ => none

/-- The notification emitted when the stream closes with the given final
error counter and timeout flag (lines 142-155 and 168). -/
def closedNotif (errCount : Nat) (timedOut : Bool) : Notif :=
  if 0 < errCount then Notif.processExecutionFailure errCount
  else if timedOut then Notif.processTimeoutFailure
  else Notif.processFinished

/-- The outcome when the stream closes with the given final error counter
and timeout flag. -/
def closedOutcome (errCount : Nat) (timedOut : Bool) : Outcome :=
  if 0 < errCount then Outcome.componentFailure errCount
  else if timedOut then Outcome.timeoutFailure
  else Outcome.finished

theorem uninstallLoop_append_closed (pre : List SupEvent)
    (h : ∀ e ∈ pre, nonTerminal e = true) (errCount : Nat) (timeoutOccured : Bool)
    (statusMap : List (String × Status)) :
    uninstallLoop (pre ++ [SupEvent.closed]) errCount timeoutOccured statusMap =
      (pre.filterMap recvNotif ++
         [closedNotif (errCount + errorsIn pre) (timeoutOccured || softFired pre)],
       some (closedOutcome (errCount + errorsIn pre) (timeoutOccured || softFired pre))) := by
  induction pre generalizing errCount timeoutOccured statusMap with
  | nil =>
      simp only [List.nil_append, uninstallLoop, List.filterMap_nil, errorsIn,
        List.countP_nil, softFired, List.any_nil, closedNotif, closedOutcome,
        Nat.add_zero, Bool.or_false, List.nil_append]
      by_cases h1 : 0 < errCount
      · simp [h1]
      · by_cases h2 : timeoutOccured <;> simp [h1, h2]
  | cons e rest ih =>
      have hrest : ∀ x ∈ rest, nonTerminal x = true :=
        fun x hx => h x (List.mem_cons_of_mem _ hx)
      cases e with
      | recv cmp =>
          have hcount : (if cmp.status = Status.error then errCount + 1 else errCount) +
              errorsIn rest = errCount + errorsIn (SupEvent.recv cmp :: rest) := by
            by_cases hc : cmp.status = Status.error
            · simp [errorsIn, List.countP_cons, hc]
              omega
            · simp [errorsIn, List.countP_cons, hc]
          have hsoft : softFired (SupEvent.recv cmp :: rest) = softFired rest := by
            simp [softFired]
          simp only [List.cons_append, uninstallLoop, List.append_eq,
            ih hrest, hsoft]
          rw [hcount]
          simp [recvNotif]
      | closed =>
          have := h _ (List.mem_cons_self _ _)
          simp [nonTerminal] at this
      | softTimer =>
          have hcnt : errorsIn (SupEvent.softTimer :: rest) = errorsIn rest := by
            simp [errorsIn, List.countP_cons]
          have hsoft : softFired (SupEvent.softTimer :: rest) = true := by
            simp [softFired]
          simp [uninstallLoop, List.append_eq, ih hrest, hcnt, hsoft, recvNotif]
      | hardTimer =>
          have := h _ (List.mem_cons_self _ _)
          simp [nonTerminal] at this

theorem uninstallLoop_append_hard (pre : List SupEvent)
    (h : ∀ e ∈ pre, nonTerminal e = true) (rest : List SupEvent)
    (errCount : Nat) (timeoutOccured : Bool) (statusMap : List (String × Status)) :
    uninstallLoop (pre ++ SupEvent.hardTimer :: rest) errCount timeoutOccured statusMap =
      (pre.filterMap recvNotif ++ [Notif.processForceQuitFailure],
       some Outcome.forceQuitFailure) := by
  induction pre generalizing errCount timeoutOccured statusMap with
  | nil => simp [uninstallLoop]
  | cons e rest' ih =>
      have hrest : ∀ x ∈ rest', nonTerminal x = true :=
        fun x hx => h x (List.mem_cons_of_mem _ hx)
      cases e with
      | recv cmp => simp [uninstallLoop, List.append_eq, ih hrest, recvNotif]
      | closed =>
          have := h _ (List.mem_cons_self _ _)
          simp [nonTerminal] at this
      | softTimer => simp [uninstallLoop, List.append_eq, ih hrest, recvNotif]
      | hardTimer =>
          have := h _ (List.mem_cons_self _ _)
          simp [nonTerminal] at this

/-- C1: when the engine's status stream closes, the supervisor's outcome
is `componentFailure` with the exact number of Error statuses observed if
that number is positive; otherwise `timeoutFailure` if the soft-cancel
timer had fired; otherwise `finished` — error count dominates timeout,
timeout dominates a clean-but-late stop. -/
theorem uninstall_stream_close_outcome (pre : List SupEvent)
    (h : ∀ e ∈ pre, nonTerminal e = true) :
    (uninstallComponents (EngineRun.stream (pre ++ [SupEvent.closed]))).2 =
      some (if 0 < errorsIn pre then Outcome.componentFailure (errorsIn pre)
            else if softFired pre then Outcome.timeoutFailure
            else Outcome.finished) := by
  simp [uninstallComponents, uninstallLoop_append_closed pre h, closedOutcome]

theorem uninstall_stream_close_outcome_witness :
    ((uninstallComponents (EngineRun.stream
        ([SupEvent.recv ⟨"a", Status.success⟩, SupEvent.softTimer,
          SupEvent.recv ⟨"b", Status.error⟩] ++ [SupEvent.closed]))).2 =
      some (Outcome.componentFailure 1)) ∧
    ((uninstallComponents (EngineRun.stream
        ([SupEvent.recv ⟨"a", Status.success⟩, SupEvent.softTimer] ++ [SupEvent.closed]))).2 =
      some Outcome.timeoutFailure) ∧
    ((uninstallComponents (EngineRun.stream
        ([SupEvent.recv ⟨"a", Status.success⟩] ++ [SupEvent.closed]))).2 =
      some Outcome.finished) :=
  ⟨(uninstall_stream_close_outcome _ (by decide)).trans (by decide),
   (uninstall_stream_close_outcome _ (by decide)).trans (by decide),
   (uninstall_stream_close_outcome _ (by decide)).trans (by decide)⟩

/-- C5: when the hard-quit timer fires while the loop is still waiting,
the outcome is `forceQuitFailure` and the function returns immediately:
any stream events that would have arrived later (`rest`) are never
received, so the result coincides with the run that ends at the timer. -/
theorem hard_quit_returns_immediately (pre rest : List SupEvent)
    (h : ∀ e ∈ pre, nonTerminal e = true) :
    (uninstallComponents (EngineRun.stream (pre ++ SupEvent.hardTimer :: rest))).2 =
      some Outcome.forceQuitFailure ∧
    uninstallComponents (EngineRun.stream (pre ++ SupEvent.hardTimer :: rest)) =
      uninstallComponents (EngineRun.stream (pre ++ [SupEvent.hardTimer])) := by
  constructor
  · simp [uninstallComponents, uninstallLoop_append_hard pre h]
  · simp [uninstallComponents, uninstallLoop_append_hard pre h,
      uninstallLoop_append_hard pre h []]

theorem hard_quit_returns_immediately_witness :
    ((uninstallComponents (EngineRun.stream
        ([SupEvent.recv ⟨"a", Status.success⟩, SupEvent.softTimer] ++
          SupEvent.hardTimer :: [SupEvent.recv ⟨"b", Status.error⟩, SupEvent.closed]))).2 =
      some Outcome.forceQuitFailure) ∧
    (uninstallComponents (EngineRun.stream
        ([SupEvent.recv ⟨"a", Status.success⟩, SupEvent.softTimer] ++
          SupEvent.hardTimer :: [SupEvent.recv ⟨"b", Status.error⟩, SupEvent.closed])) =
      uninstallComponents (EngineRun.stream
        ([SupEvent.recv ⟨"a", Status.success⟩, SupEvent.softTimer] ++ [SupEvent.hardTimer]))) :=
  hard_quit_returns_immediately _ _ (by decide)

/-- Whether a notification is the `ProcessStart` lifecycle event. -/
def isStartNotif : Notif → Bool
  | Notif.processStart => true
  | _ => false

/-- Whether a notification is a terminal lifecycle event:
`ProcessExecutionFailure`, `ProcessTimeoutFailure`,
`ProcessForceQuitFailure` or `ProcessFinished`. -/
def isTerminalNotif : Notif → Bool
  | Notif.processExecutionFailure _ => true
  | Notif.processTimeoutFailure => true
  | Notif.processForceQuitFailure => true
  | Notif.processFinished => true
  | _ => false

theorem recvNotif_not_start_terminal (pre : List SupEvent) :
    ∀ n ∈ pre.filterMap recvNotif, isStartNotif n = false ∧ isTerminalNotif n = false := by
  intro n hn
  rcases List.mem_filterMap.mp hn with ⟨e, _, he⟩
  cases e with
  | recv cmp =>
      simp [recvNotif] at he
      simp [← he, isStartNotif, isTerminalNotif]
  | closed => simp [recvNotif] at he
  | softTimer => simp [recvNotif] at he
  | hardTimer => simp [recvNotif] at he

theorem closedNotif_terminal (errCount : Nat) (timedOut : Bool) :
    isStartNotif (closedNotif errCount timedOut) = false ∧
    isTerminalNotif (closedNotif errCount timedOut) = true := by
  by_cases h1 : 0 < errCount <;> by_cases h2 : timedOut <;>
    simp [closedNotif, h1, h2, isStartNotif, isTerminalNotif]

theorem notif_shape_counts (body : List Notif) (last : Notif)
    (hb : ∀ n ∈ body, isStartNotif n = false ∧ isTerminalNotif n = false)
    (hl1 : isStartNotif last = false) (hl2 : isTerminalNotif last = true) :
    (Notif.processStart :: (body ++ [last])).countP isStartNotif = 1 ∧
    (Notif.processStart :: (body ++ [last])).countP isTerminalNotif = 1 ∧
    (Notif.processStart :: (body ++ [last])).getLast? = some last := by
  have hs : body.countP isStartNotif = 0 :=
    List.countP_eq_zero.mpr fun n hn => by simp [(hb n hn).1]
  have ht : body.countP isTerminalNotif = 0 :=
    List.countP_eq_zero.mpr fun n hn => by simp [(hb n hn).2]
  refine ⟨?_, ?_, ?_⟩
  · cases last <;> simp_all [List.countP_cons, List.countP_append, isStartNotif]
  · cases last <;> simp_all [List.countP_cons, List.countP_append, isTerminalNotif]
  · rw [show Notif.processStart :: (body ++ [last]) =
        (Notif.processStart :: body) ++ [last] by simp]
    exact List.getLast?_concat _

/-- C6 counterexample: when `eng.Uninstall` itself returns an error, the
supervisor returns it at line 126 — before the `ProcessStart` update of
line 129 — so neither a Start nor a terminal notification is emitted,
contradicting the claim that both are emitted unconditionally for every
engine behaviour. -/
theorem engine_error_emits_no_notifications :
    (uninstallComponents (EngineRun.uninstallError { msg := "uninstall failed" })).1 = [] ∧
    (uninstallComponents (EngineRun.uninstallError
      { msg := "uninstall failed" })).1.countP isStartNotif = 0 ∧
    (uninstallComponents (EngineRun.uninstallError
      { msg := "uninstall failed" })).1.countP isTerminalNotif = 0 :=
  ⟨rfl, rfl, rfl⟩

/-- C6 amended: whenever `eng.Uninstall` succeeds and the run reaches a
terminal event (stream closure or hard-quit), the notification sequence
contains exactly one Start, which is first, and exactly one terminal
notification, which is last, and a terminal outcome is produced; when
`eng.Uninstall` itself errors, the error is returned with no
notifications at all. -/
theorem lifecycle_notifications (pre : List SupEvent) (t : SupEvent)
    (hpre : ∀ e ∈ pre, nonTerminal e = true) (ht : nonTerminal t = false) :
    ((uninstallComponents (EngineRun.stream (pre ++ [t]))).2 ≠ none) ∧
    ((uninstallComponents (EngineRun.stream (pre ++ [t]))).1.countP isStartNotif = 1) ∧
    ((uninstallComponents (EngineRun.stream (pre ++ [t]))).1.countP isTerminalNotif = 1) ∧
    ((uninstallComponents (EngineRun.stream (pre ++ [t]))).1.head? =
      some Notif.processStart) ∧
    (∃ last, isTerminalNotif last = true ∧
      (uninstallComponents (EngineRun.stream (pre ++ [t]))).1.getLast? = some last) ∧
    (∀ e : GoError, uninstallComponents (EngineRun.uninstallError e) =
      ([], some (Outcome.engineError e))) := by
  cases t with
  | recv cmp => simp [nonTerminal] at ht
  | softTimer => simp [nonTerminal] at ht
  | closed =>
      have hrun := uninstallLoop_append_closed pre hpre 0 false []
      have hshape := notif_shape_counts (pre.filterMap recvNotif)
        (closedNotif (0 + errorsIn pre) (false || softFired pre))
        (recvNotif_not_start_terminal pre)
        (closedNotif_terminal _ _).1 (closedNotif_terminal _ _).2
      refine ⟨?_, ?_, ?_, ?_, ?_, fun e => rfl⟩
      · simp [uninstallComponents, hrun]
      · simpa [uninstallComponents, hrun] using hshape.1
      · simpa [uninstallComponents, hrun] using hshape.2.1
      · simp [uninstallComponents, hrun]
      · exact ⟨closedNotif (0 + errorsIn pre) (false || softFired pre),
          (closedNotif_terminal _ _).2,
          by simpa [uninstallComponents, hrun] using hshape.2.2⟩
  | hardTimer =>
      have hrun := uninstallLoop_append_hard pre hpre [] 0 false []
      have hshape := notif_shape_counts (pre.filterMap recvNotif)
        Notif.processForceQuitFailure
        (recvNotif_not_start_terminal pre) rfl rfl
      refine ⟨?_, ?_, ?_, ?_, ?_, fun e => rfl⟩
      · simp [uninstallComponents, hrun]
      · simpa [uninstallComponents, hrun] using hshape.1
      · simpa [uninstallComponents, hrun] using hshape.2.1
      · simp [uninstallComponents, hrun]
      · exact ⟨Notif.processForceQuitFailure, rfl,
          by simpa [uninstallComponents, hrun] using hshape.2.2⟩

theorem lifecycle_notifications_witness :
    ((uninstallComponents (EngineRun.stream
        ([SupEvent.recv ⟨"a", Status.error⟩] ++ [SupEvent.closed]))).2 ≠ none) ∧
    ((uninstallComponents (EngineRun.stream
        ([SupEvent.recv ⟨"a", Status.error⟩] ++
          [SupEvent.closed]))).1.countP isStartNotif = 1) ∧
    ((uninstallComponents (EngineRun.stream
        ([SupEvent.recv ⟨"a", Status.error⟩] ++
          [SupEvent.closed]))).1.countP isTerminalNotif = 1) ∧
    ((uninstallComponents (EngineRun.stream
        ([SupEvent.recv ⟨"a", Status.error⟩] ++ [SupEvent.closed]))).1.head? =
      some Notif.processStart) ∧
    (∃ last, isTerminalNotif last = true ∧
      (uninstallComponents (EngineRun.stream
        ([SupEvent.recv ⟨"a", Status.error⟩] ++ [SupEvent.closed]))).1.getLast? =
        some last) ∧
    (∀ e : GoError, uninstallComponents (EngineRun.uninstallError e) =
      ([], some (Outcome.engineError e))) :=
  lifecycle_notifications [SupEvent.recv ⟨"a", Status.error⟩] SupEvent.closed
    (by decide) (by decide)

/-!
## Aggregation lemmas
-/

theorem foldl_aggStep_some (errs : List GoError) (acc : GoError) :
    ∃ w, errs.foldl aggStep (some acc) = some w := by
  induction errs generalizing acc with
  | nil => exact ⟨acc, rfl⟩
  | cons e rest ih => exact ih (goWrap e acc.msg)

theorem goWrap_mentions (e : GoError) (m : String) :
    m.data <:+: (goWrap e m).msg.data ∧ e.msg.data <:+: (goWrap e m).msg.data := by
  constructor
  · refine List.IsPrefix.isInfix ?_
    show m.data <+: (m ++ ": " ++ e.msg).data
    rw [String.data_append, String.data_append, List.append_assoc]
    exact List.prefix_append _ _
  · refine List.IsSuffix.isInfix ?_
    show e.msg.data <:+ (m ++ ": " ++ e.msg).data
    rw [String.data_append]
    exact List.suffix_append _ _

theorem foldl_aggStep_mentions (errs : List GoError) (acc w : GoError)
    (h : errs.foldl aggStep (some acc) = some w) :
    acc.msg.data <:+: w.msg.data ∧ ∀ e ∈ errs, e.msg.data <:+: w.msg.data := by
  induction errs generalizing acc with
  | nil =>
      simp only [List.foldl_nil, Option.some_inj] at h
      subst h
      exact ⟨List.infix_rfl, by simp⟩
  | cons e rest ih =>
      simp only [List.foldl_cons, aggStep] at h
      obtain ⟨h1, h2⟩ := ih (goWrap e acc.msg) h
      refine ⟨((goWrap_mentions e acc.msg).1).trans h1, ?_⟩
      intro x hx
      rcases List.mem_cons.mp hx with rfl | hmem
      · exact ((goWrap_mentions x acc.msg).2).trans h1
      · exact h2 x hmem

theorem aggregate_eq_none_iff (errs : List GoError) :
    aggregate errs = none ↔ errs = [] := by
  cases errs with
  | nil => simp [aggregate]
  | cons a rest =>
      simp only [aggregate, List.foldl_cons, aggStep]
      obtain ⟨w, hw⟩ := foldl_aggStep_some rest a
      simp [hw]

theorem aggregate_mentions (errs : List GoError) (w : GoError)
    (h : aggregate errs = some w) : ∀ e ∈ errs, e.msg.data <:+: w.msg.data := by
  cases errs with
  | nil => simp [aggregate] at h
  | cons a rest =>
      intro e he
      simp only [aggregate, List.foldl_cons, aggStep] at h
      obtain ⟨h1, h2⟩ := foldl_aggStep_mentions rest a w h
      rcases List.mem_cons.mp he with rfl | hmem
      · exact h1
      · exact h2 e hmem

/-!
## Teardown theorems
-/

theorem not_blocked_run (attempts : Nat) (envs : List NsEnv)
    (hnb : ∀ env ∈ envs, runPrecheck attempts env ≠ PrecheckOutcome.blocked)
    (arrival : List GoError) :
    deleteKymaNamespaces attempts envs arrival = some (aggregate arrival) := by
  unfold deleteKymaNamespaces
  rw [if_neg]
  intro hany
  rcases List.any_eq_true.mp hany with ⟨env, henv, hb⟩
  exact hnb env henv (by simpa using hb)

/-- C4: with every pre-check passing or skipping (so the call returns at
all) and `arrival` a possible order in which the fan-in aggregator
receives the spawned workers' errors — completeness of `arrival` reflects
that the call returns only after `wg.Wait()` has seen every worker finish
— the result is nil exactly when no worker reported an error, and any
returned wrapped error mentions every individual worker error in its
message. -/
theorem teardown_error_aggregation (attempts : Nat) (envs : List NsEnv)
    (arrival : List GoError)
    (hnb : ∀ env ∈ envs, runPrecheck attempts env ≠ PrecheckOutcome.blocked)
    (ha : ValidArrival attempts envs arrival) :
    (deleteKymaNamespaces attempts envs arrival = some none ↔
      teardownErrors attempts envs = []) ∧
    (∀ w, deleteKymaNamespaces attempts envs arrival = some (some w) →
      ∀ e ∈ teardownErrors attempts envs, e.msg.data <:+: w.msg.data) := by
  have hrun := not_blocked_run attempts envs hnb arrival
  constructor
  · rw [hrun]
    constructor
    · intro h
      have : aggregate arrival = none := by
        simpa using h
      exact (List.Perm.symm ((aggregate_eq_none_iff arrival).mp this ▸ ha)).eq_nil
    · intro h
      have harr : arrival = [] := (List.Perm.eq_nil (h ▸ ha))
      simp [harr, aggregate]
  · intro w hw e he
    rw [hrun] at hw
    have hagg : aggregate arrival = some w := by simpa using hw
    exact aggregate_mentions arrival w hagg e (ha.mem_iff.mpr he)

/-- A namespace whose cluster answers are all clean: the pre-check sees no
pods and every worker call succeeds. -/
def cleanNsEnv (nsName : String) : NsEnv :=
  { name := nsName
    podLists := fun _ => PodListResult.pods []
    csbItems := []
    sbItems := []
    secretGet := none
    ruleItems := [] }

def nsEnvA : NsEnv := cleanNsEnv "nsa"

def nsEnvB : NsEnv := { cleanNsEnv "nsb" with nsDeleteErr := some { msg := "X" } }

def nsEnvC : NsEnv := { cleanNsEnv "nsc" with nsDeleteErr := some { msg := "Y" } }

theorem teardown_error_aggregation_witness :
    (deleteKymaNamespaces 1 [nsEnvA, nsEnvB, nsEnvC]
        [{ msg := "X" }, { msg := "Y" }] =
      some (some { msg := "X: Y", notFound := false })) ∧
    "X".data <:+: "X: Y".data ∧ "Y".data <:+: "X: Y".data := by
  have h := teardown_error_aggregation 1 [nsEnvA, nsEnvB, nsEnvC]
    [{ msg := "X" }, { msg := "Y" }] (by decide) (List.Perm.refl _)
  refine ⟨by decide, ?_, ?_⟩
  · exact h.2 { msg := "X: Y", notFound := false } (by decide) { msg := "X" } (by decide)
  · exact h.2 { msg := "X: Y", notFound := false } (by decide) { msg := "Y" } (by decide)

/-- C7: when every namespace either exhausts its pre-check retries (a pod
stays Running across all attempts) or passes with a worker that reports no
error, the run returns nil — a skipped namespace contributes no error —
and no worker is ever spawned for a skipped namespace. -/
theorem skipped_namespace_not_an_error (attempts : Nat) (envs : List NsEnv)
    (h : ∀ env ∈ envs, runPrecheck attempts env = PrecheckOutcome.skipped ∨
      (runPrecheck attempts env = PrecheckOutcome.passed ∧ (runWorker env).2 = []))
    (arrival : List GoError) (ha : ValidArrival attempts envs arrival) :
    deleteKymaNamespaces attempts envs arrival = some none ∧
    (∀ env ∈ envs, runPrecheck attempts env = PrecheckOutcome.skipped →
      env ∉ activeEnvs attempts envs) := by
  have hnb : ∀ env ∈ envs, runPrecheck attempts env ≠ PrecheckOutcome.blocked := by
    intro env henv hb
    rcases h env henv with hs | ⟨hp, _⟩
    · rw [hb] at hs; exact PrecheckOutcome.noConfusion hs
    · rw [hb] at hp; exact PrecheckOutcome.noConfusion hp
  have hte : teardownErrors attempts envs = [] := by
    unfold teardownErrors
    rw [List.flatten_eq_nil_iff]
    intro l hl
    rcases List.mem_map.mp hl with ⟨env, henv, rfl⟩
    rcases List.mem_filter.mp henv with ⟨henvs, hp⟩
    rcases h env henvs with hs | ⟨_, he⟩
    · rw [hs] at hp; simp at hp
    · exact he
  have harr : arrival = [] := List.Perm.eq_nil (hte ▸ ha)
  refine ⟨?_, ?_⟩
  · rw [not_blocked_run attempts envs hnb arrival, harr]
    rfl
  · intro env _ hs hmem
    rcases List.mem_filter.mp hmem with ⟨_, hp⟩
    rw [hs] at hp
    simp at hp

/-- A namespace with one pod that stays Running on every pre-check
attempt. -/
def nsEnvLive : NsEnv :=
  { cleanNsEnv "live" with
    podLists := fun _ => PodListResult.pods [{ name := "p1", phase := PodPhase.running }] }

theorem skipped_namespace_not_an_error_witness :
    deleteKymaNamespaces 2 [nsEnvLive, nsEnvA, cleanNsEnv "nsd"] [] = some none ∧
    nsEnvLive ∉ activeEnvs 2 [nsEnvLive, nsEnvA, cleanNsEnv "nsd"] := by
  have h := skipped_namespace_not_an_error 2 [nsEnvLive, nsEnvA, cleanNsEnv "nsd"]
    (by decide) [] (List.Perm.refl _)
  exact ⟨h.1, h.2 nsEnvLive (List.mem_cons_self _ _) (by decide)⟩

/-- A "kyma-system" environment whose only abnormal answer is a not-found
error on the ClusterServiceBroker list call. -/
def nsEnvCsbNF : NsEnv :=
  { cleanNsEnv "kyma-system" with
    csbListErr := some { msg := "the server could not find the requested resource",
                         notFound := true } }

/-- C8 counterexample: a not-found error on the ClusterServiceBroker list
— the initial fetch of the first finalizer-clearing step — is sent to the
aggregation channel (lines 209-211 have no `IsNotFound` exemption, unlike
lines 237 and 269), so the worker reports it and the teardown returns a
non-nil error: the fetch is not treated as success for every resource
kind in the clearing sequence. -/
theorem csb_notfound_fetch_reported :
    (runWorker nsEnvCsbNF).2 =
      [{ msg := "the server could not find the requested resource", notFound := true }] ∧
    deleteKymaNamespaces 1 [nsEnvCsbNF]
        [{ msg := "the server could not find the requested resource", notFound := true }] ≠
      some none :=
  ⟨by decide, by decide⟩

/-- C8 amended: idempotency with respect to absent resources holds for
the namespace delete call (not-found tolerated, lines 269-271) and for
the Secret fetch (not-found tolerated and a nil secret cleans nothing,
lines 236-246) — in particular a worker for a non-system namespace whose
delete fails not-found reports no error at all; but the three list-based
clearing fetches (ClusterServiceBrokers, ServiceBrokers, Rules) report
every error, not-found included: with clean updates, a system-namespace
worker's reported errors are exactly its list-fetch errors. -/
theorem notfound_tolerance_scope :
    (∀ env : NsEnv, env.name ≠ "kyma-system" →
      (∀ e, env.nsDeleteErr = some e → e.notFound = true) →
      (runWorker env).2 = []) ∧
    (∀ env : NsEnv, env.name = "kyma-system" →
      env.secretGet = none →
      (∀ e, env.secretGetErr = some e → e.notFound = true) →
      (∀ e, env.nsDeleteErr = some e → e.notFound = true) →
      (∀ r ∈ env.csbItems, env.csbUpdateErr r.name = none) →
      (∀ r ∈ env.sbItems, env.sbUpdateErr r.name = none) →
      (∀ r ∈ env.ruleItems, env.ruleUpdateErr r.name = none) →
      (runWorker env).2 =
        optErr env.csbListErr ++ optErr env.sbListErr ++ optErr env.rulesListErr) := by
  constructor
  · intro env hname hdel
    have hd : notFoundTolerated env.nsDeleteErr = [] := by
      cases he : env.nsDeleteErr with
      | none => rfl
      | some e => simp [notFoundTolerated, hdel e he]
    simp [runWorker, hname, deleteNsStep, hd]
  · intro env hname hsec hsecErr hdel hcsb hsb hrule
    have hd : notFoundTolerated env.nsDeleteErr = [] := by
      cases he : env.nsDeleteErr with
      | none => rfl
      | some e => simp [notFoundTolerated, hdel e he]
    have hg : notFoundTolerated env.secretGetErr = [] := by
      cases he : env.secretGetErr with
      | none => rfl
      | some e => simp [notFoundTolerated, hsecErr e he]
    have h1 : env.csbItems.filterMap (fun r => env.csbUpdateErr r.name) = [] :=
      List.filterMap_eq_nil_iff.mpr hcsb
    have h2 : env.sbItems.filterMap (fun r => env.sbUpdateErr r.name) = [] :=
      List.filterMap_eq_nil_iff.mpr hsb
    have h3 : env.ruleItems.filterMap (fun r => env.ruleUpdateErr r.name) = [] :=
      List.filterMap_eq_nil_iff.mpr hrule
    simp [runWorker, hname, finalizerCleanup, clearCSB, clearSB, clearSecret,
      clearRules, deleteNsStep, hsec, hg, hd, h1, h2, h3]

theorem notfound_tolerance_scope_witness :
    (runWorker { cleanNsEnv "other" with
        nsDeleteErr := some { msg := "namespaces not found", notFound := true } }).2 = [] ∧
    (runWorker { nsEnvCsbNF with
        secretGetErr := some { msg := "secrets not found", notFound := true },
        nsDeleteErr := some { msg := "namespaces not found", notFound := true } }).2 =
      [{ msg := "the server could not find the requested resource", notFound := true }] := by
  constructor
  · exact notfound_tolerance_scope.1 _ (by decide) (by decide)
  · have h := notfound_tolerance_scope.2
      { nsEnvCsbNF with
        secretGetErr := some { msg := "secrets not found", notFound := true },
        nsDeleteErr := some { msg := "namespaces not found", notFound := true } }
      (by decide) (by decide) (by decide) (by decide) (by decide) (by decide) (by decide)
    exact h.trans (by decide)

/-- A namespace whose pre-check pod-list call fails with a transport
error on every attempt. -/
def nsEnvTransport : NsEnv :=
  { cleanNsEnv "broken" with
    podLists := fun _ => PodListResult.listErr { msg := "connection refused" } }

/-- C9 counterexample: when the pre-check's pod-list call fails outright,
line 185 sends the error on the unbuffered `errorCh` while the consuming
`select` of lines 284-298 has not started (it runs in the same goroutine,
after the spawn loop) and no other goroutine ever receives — the
coordinator call blocks forever (`none`) instead of logging, skipping and
returning normally. -/
theorem precheck_transport_error_no_return :
    runPrecheck 3 nsEnvTransport = PrecheckOutcome.blocked ∧
    deleteKymaNamespaces 3 [nsEnvTransport, nsEnvA] [] = none :=
  ⟨by decide, by decide⟩

/-- C9 amended: a run containing a namespace whose pre-check pod-list
call errors never returns at all — the error-channel send of line 185 has
no active receiver during the pre-check phase — so the failure is neither
logged-and-skipped nor surfaced as a returned error. -/
theorem precheck_transport_error_blocks (attempts : Nat) (envs : List NsEnv)
    (arrival : List GoError) (env : NsEnv) (henv : env ∈ envs)
    (h : runPrecheck attempts env = PrecheckOutcome.blocked) :
    deleteKymaNamespaces attempts envs arrival = none := by
  unfold deleteKymaNamespaces
  rw [if_pos]
  exact List.any_eq_true.mpr ⟨env, henv, by simp [h]⟩

theorem precheck_transport_error_blocks_witness :
    deleteKymaNamespaces 5 [nsEnvA, nsEnvTransport] [] = none :=
  precheck_transport_error_blocks 5 [nsEnvA, nsEnvTransport] [] nsEnvTransport
    (List.mem_cons_of_mem _ (List.mem_cons_self _ _)) (by decide)

/-- C10: a worker for any namespace other than "kyma-system" performs
exactly the namespace delete call and nothing else; a worker for
"kyma-system" performs the finalizer-clearing calls in the fixed source
order — ClusterServiceBrokers list and updates, ServiceBrokers list and
updates, the Secret get and update, Rules list and updates — and the
namespace delete strictly last. -/
theorem worker_frame (env : NsEnv) :
    (env.name ≠ "kyma-system" →
      (runWorker env).1 = [WorkerOp.deleteNS env.name]) ∧
    (env.name = "kyma-system" →
      (runWorker env).1 =
        ((WorkerOp.listCSB :: env.csbItems.map fun r => WorkerOp.updateCSB r.name) ++
         (WorkerOp.listSB :: env.sbItems.map fun r => WorkerOp.updateSB r.name) ++
         (WorkerOp.getSecret ::
           (match env.secretGet with
            | some s => [WorkerOp.updateSecret s.name]
            | none => [])) ++
         (WorkerOp.listRules :: env.ruleItems.map fun r => WorkerOp.updateRule r.name)) ++
        [WorkerOp.deleteNS env.name]) := by
  constructor
  · intro h
    simp [runWorker, h, deleteNsStep]
  · intro h
    simp [runWorker, h, finalizerCleanup, clearCSB, clearSB, clearSecret,
      clearRules, deleteNsStep]

theorem worker_frame_witness :
    (runWorker (cleanNsEnv "other")).1 = [WorkerOp.deleteNS "other"] ∧
    (runWorker { cleanNsEnv "kyma-system" with
        csbItems := [{ name := "csb1" }],
        secretGet := some { name := "serverless-registry-config-default" } }).1 =
      [WorkerOp.listCSB, WorkerOp.updateCSB "csb1", WorkerOp.listSB,
       WorkerOp.getSecret, WorkerOp.updateSecret "serverless-registry-config-default",
       WorkerOp.listRules, WorkerOp.deleteNS "kyma-system"] := by
  constructor
  · exact ((worker_frame (cleanNsEnv "other")).1 (by decide)).trans (by decide)
  · exact ((worker_frame _).2 (by decide)).trans (by decide)

/-!
## Orchestrator theorems
-/

/-- C3: the orchestrator aborts on the first failing phase.  When the
Components-phase supervisor returns a non-nil error, the run returns that
error after the single Components-phase call: the Prerequisites phase and
the teardown coordinator are never invoked.  Likewise a
Prerequisites-phase error is returned with no teardown call. -/
theorem phase_failure_aborts_run (env : OrchEnv) (nss : List String)
    (hns : env.namespacesResult = Except.ok nss) :
    (∀ out1, (uninstallComponents env.componentsRun).2 = some out1 →
      out1 ≠ Outcome.finished →
      startKymaUninstallation env =
        some ([OrchCall.componentsPhase env.cancelTimeout env.quitTimeout],
              some (OrchError.phase InstallationPhase.UninstallComponents out1))) ∧
    (∀ out2, (uninstallComponents env.componentsRun).2 = some Outcome.finished →
      (uninstallComponents env.prereqRun).2 = some out2 → out2 ≠ Outcome.finished →
      startKymaUninstallation env =
        some ([OrchCall.componentsPhase env.cancelTimeout env.quitTimeout,
               OrchCall.prereqPhase
                 (calculateDuration env.startTime env.endTime env.cancelTimeout)
                 (calculateDuration env.startTime env.endTime env.quitTimeout)],
              some (OrchError.phase InstallationPhase.UninstallPreRequisites out2))) := by
  constructor
  · intro out1 h1 hne
    simp [startKymaUninstallation, hns, h1, outcomeIsError, hne]
  · intro out2 h1 h2 hne
    simp [startKymaUninstallation, hns, h1, h2, outcomeIsError, hne]

/-- A run whose two phases both finish cleanly, with phase 1 lasting
12 minutes against a 10-minute cancel budget and a 20-minute quit budget
(nanosecond instants). -/
def orchEnvOk : OrchEnv :=
  { namespacesResult := Except.ok ["kyma-system"]
    componentsRun := EngineRun.stream
      [SupEvent.recv ⟨"a", Status.success⟩, SupEvent.closed]
    prereqRun := EngineRun.stream [SupEvent.closed]
    startTime := 0
    endTime := 720000000000
    cancelTimeout := 600000000000
    quitTimeout := 1200000000000
    retryAttempts := 1
    nsEnvs := []
    arrival := [] }

/-- `orchEnvOk` with one of three components reporting Error in the
Components phase. -/
def orchEnvCompFail : OrchEnv :=
  { orchEnvOk with
    componentsRun := EngineRun.stream
      [SupEvent.recv ⟨"a", Status.error⟩, SupEvent.recv ⟨"b", Status.success⟩,
       SupEvent.recv ⟨"c", Status.success⟩, SupEvent.closed] }

/-- `orchEnvOk` with the Prerequisites phase closing after the soft-cancel
timer fired. -/
def orchEnvPrereqFail : OrchEnv :=
  { orchEnvOk with
    prereqRun := EngineRun.stream [SupEvent.softTimer, SupEvent.closed] }

theorem phase_failure_aborts_run_witness :
    (startKymaUninstallation orchEnvCompFail =
      some ([OrchCall.componentsPhase 600000000000 1200000000000],
            some (OrchError.phase InstallationPhase.UninstallComponents
              (Outcome.componentFailure 1)))) ∧
    (startKymaUninstallation orchEnvPrereqFail =
      some ([OrchCall.componentsPhase 600000000000 1200000000000,
             OrchCall.prereqPhase 0 480000000000],
            some (OrchError.phase InstallationPhase.UninstallPreRequisites
              Outcome.timeoutFailure))) := by
  constructor
  · exact ((phase_failure_aborts_run orchEnvCompFail ["kyma-system"] rfl).1
      (Outcome.componentFailure 1) (by decide) (by decide)).trans (by decide)
  · exact ((phase_failure_aborts_run orchEnvPrereqFail ["kyma-system"] rfl).2
      Outcome.timeoutFailure (by decide) (by decide) (by decide)).trans (by decide)

/-- C2: in any run that returns, every Prerequisites-phase supervisor call
receives cancel and quit budgets equal to `max 0 (original − elapsed)`,
where `elapsed` is the measured wall-clock duration of the Components
phase; both adjusted budgets are non-negative. -/
theorem prereq_budget_adjustment (env : OrchEnv) (calls : List OrchCall)
    (res : Option OrchError) (cT qT : Int)
    (h : startKymaUninstallation env = some (calls, res))
    (hmem : OrchCall.prereqPhase cT qT ∈ calls) :
    cT = max 0 (env.cancelTimeout - (env.endTime - env.startTime)) ∧
    qT = max 0 (env.quitTimeout - (env.endTime - env.startTime)) ∧
    0 ≤ cT ∧ 0 ≤ qT := by
  unfold startKymaUninstallation at h
  cases hE : env.namespacesResult with
  | error e =>
      rw [hE] at h
      simp only [Option.some_inj] at h
      obtain ⟨h1, _⟩ := Prod.mk.injEq .. ▸ h
      rw [← h1] at hmem
      simp at hmem
  | ok nss =>
      rw [hE] at h
      dsimp only at h
      cases h1 : (uninstallComponents env.componentsRun).2 with
      | none => rw [h1] at h; exact absurd h (by simp)
      | some out1 =>
          rw [h1] at h
          dsimp only at h
          by_cases ho1 : outcomeIsError out1 = true
          · rw [if_pos ho1] at h
            simp only [Option.some_inj] at h
            obtain ⟨hc, _⟩ := Prod.mk.injEq .. ▸ h
            rw [← hc] at hmem
            simp at hmem
          · rw [if_neg ho1] at h
            cases h2 : (uninstallComponents env.prereqRun).2 with
            | none => rw [h2] at h; exact absurd h (by simp)
            | some out2 =>
                rw [h2] at h
                dsimp only at h
                by_cases ho2 : outcomeIsError out2 = true
                · rw [if_pos ho2] at h
                  simp only [Option.some_inj] at h
                  obtain ⟨hc, _⟩ := Prod.mk.injEq .. ▸ h
                  rw [← hc] at hmem
                  rcases List.mem_cons.mp hmem with habs | hmem2
                  · exact absurd habs (by simp)
                  · rcases List.mem_cons.mp hmem2 with heq | habs
                    · obtain ⟨hcT, hqT⟩ := OrchCall.prereqPhase.injEq .. ▸ heq
                      refine ⟨hcT.trans rfl, hqT.trans rfl, ?_, ?_⟩
                      · rw [hcT]; exact le_max_left 0 _
                      · rw [hqT]; exact le_max_left 0 _
                    · simp at habs
                · rw [if_neg ho2] at h
                  cases h3 : deleteKymaNamespaces env.retryAttempts env.nsEnvs env.arrival with
                  | none => rw [h3] at h; exact absurd h (by simp)
                  | some r =>
                      rw [h3] at h
                      dsimp only at h
                      simp only [Option.some_inj] at h
                      obtain ⟨hc, _⟩ := Prod.mk.injEq .. ▸ h
                      rw [← hc] at hmem
                      rcases List.mem_cons.mp hmem with habs | hmem2
                      · exact absurd habs (by simp)
                      · rcases List.mem_cons.mp hmem2 with heq | hmem3
                        · obtain ⟨hcT, hqT⟩ := OrchCall.prereqPhase.injEq .. ▸ heq
                          refine ⟨hcT.trans rfl, hqT.trans rfl, ?_, ?_⟩
                          · rw [hcT]; exact le_max_left 0 _
                          · rw [hqT]; exact le_max_left 0 _
                        · rcases List.mem_cons.mp hmem3 with habs | habs
                          · exact absurd habs (by simp)
                          · simp at habs

theorem prereq_budget_adjustment_witness :
    ((0 : Int) = max 0 (600000000000 - (720000000000 - 0)) ∧
     (480000000000 : Int) = max 0 (1200000000000 - (720000000000 - 0)) ∧
     (0 : Int) ≤ 0 ∧ (0 : Int) ≤ 480000000000) :=
  prereq_budget_adjustment orchEnvOk
    [OrchCall.componentsPhase 600000000000 1200000000000,
     OrchCall.prereqPhase 0 480000000000,
     OrchCall.teardown ["kyma-system", "kyma-installer"]]
    none 0 480000000000 (by decide)
    (List.mem_cons_of_mem _ (List.mem_cons_self _ _))

end Deployment
